import Mathlib

/-!
Verification of the in-memory reference backend (`tests/mock_anki.py`) and the
Spanish card helpers (`src/anki_mcp/spanish.py`) of the anki-mcp repository.

Python dictionaries are modelled as association lists kept in insertion order:
assignment `d[k] = v` replaces the value of the first entry holding `k` and
appends a fresh entry otherwise, `del d[k]` drops the first entry holding `k`,
and lookup returns the value of the first entry holding `k`.  Python sets of
tags are modelled as duplicate-free lists.  Numeric values are modelled as
`Nat`/`Int`, and the single floating-point computation of the code
(`card.factor / 1000` in the ease-query predicate) as exact division in `ℚ`.
-/

/-- Lookup in an insertion-ordered association list (`d[k]` / `d.get(k)`). -/
def alookup {κ β : Type} [DecidableEq κ] (k : κ) : List (κ × β) → Option β
  | [] => none
  | (k', v) :: rest => if k' = k then some v else alookup k rest

/-- Membership test on the keys of an association list (`k in d`). -/
def akey {κ β : Type} [DecidableEq κ] (k : κ) (d : List (κ × β)) : Bool :=
  (alookup k d).isSome

/-- Assignment `d[k] = v`: replace the value of the first entry holding `k`,
appending a fresh entry when `k` is absent. -/
def aset {κ β : Type} [DecidableEq κ] (k : κ) (v : β) : List (κ × β) → List (κ × β)
  | [] => [(k, v)]
  | (k', v') :: rest => if k' = k then (k, v) :: rest else (k', v') :: aset k v rest

/-- Deletion `del d[k]`: drop the first entry holding `k`. -/
def adel {κ β : Type} [DecidableEq κ] (k : κ) : List (κ × β) → List (κ × β)
  | [] => []
  | (k', v') :: rest => if k' = k then rest else (k', v') :: adel k rest

/-- `d.update(upd)`: assign every entry of `upd`, in order, into `d`. -/
def dictUpdate {κ β : Type} [DecidableEq κ] (d upd : List (κ × β)) : List (κ × β) :=
  upd.foldl (fun acc p => aset p.1 p.2 acc) d

/-- `s.update(new)` on a Python set modelled as a duplicate-free list:
append each element of `new` not already present. -/
def setUnion (s new : List String) : List String :=
  new.foldl (fun acc t => if acc.contains t then acc else acc ++ [t]) s

/-- `MockNote` of `tests/mock_anki.py`: note id, owning deck, model name,
insertion-ordered field mapping, tag list. -/
structure MockNote where
  note_id : Nat
  deck_name : String
  model_name : String
  fields : List (String × String)
  tags : List String
  deriving DecidableEq

/-- `MockCard` of `tests/mock_anki.py`, with the Python defaults. -/
structure MockCard where
  card_id : Nat
  note_id : Nat
  deck_name : String
  question : String
  answer : String
  factor : Nat := 2500
  interval : Int := 0
  lapses : Nat := 0
  queue : Int := 0
  type : Int := 0
  due : Int := 0
  suspended : Bool := false
  buried : Bool := false
  deriving DecidableEq

/-- `MockAnkiState` of `tests/mock_anki.py`. -/
structure MockAnkiState where
  decks : List (String × Nat)
  models : List (String × List String)
  notes : List (Nat × MockNote)
  cards : List (Nat × MockCard)
  tags : List String
  next_note_id : Nat
  next_card_id : Nat
  next_deck_id : Nat
  reviews_today : Nat
  reviews_by_day : List (List Nat)
  deriving DecidableEq

/-- The default-constructed `MockAnkiState()`. -/
def initState : MockAnkiState :=
  { decks := [("Default", 1)]
    models := [("Basic", ["Front", "Back"]), ("Cloze", ["Text", "Extra"]),
               ("Basic (and reversed card)", ["Front", "Back"])]
    notes := []
    cards := []
    tags := []
    next_note_id := 1000000000
    next_card_id := 1000000000
    next_deck_id := 100
    reviews_today := 5
    reviews_by_day := [[0, 10], [1, 15], [2, 8], [3, 12], [4, 20], [5, 5], [6, 18]] }

/-- `_create_deck` (lines 164-169): allocate `next_deck_id` when the name is
absent, then return the deck's id. -/
def create_deck (st : MockAnkiState) (deck_name : String) : Nat × MockAnkiState :=
  match alookup deck_name st.decks with
  | some i => (i, st)
  | none =>
      (st.next_deck_id,
       { st with decks := aset deck_name st.next_deck_id st.decks,
                 next_deck_id := st.next_deck_id + 1 })

/-- `list(fields.values())[0] if fields else ""`: the value of the first field
of an insertion-ordered field mapping. -/
def firstFieldValue (fields : List (String × String)) : String :=
  match fields with
  | [] => ""
  | (_, v) :: _ => v

/-- The duplicate check of `_add_note` (lines 190-195): some existing note has
the same first-field value and the same deck name. -/
def isDuplicate (st : MockAnkiState) (deck_name : String)
    (fields : List (String × String)) : Bool :=
  st.notes.any (fun p =>
    firstFieldValue p.2.fields == firstFieldValue fields && p.2.deck_name == deck_name)

/-- Lines 217-219 of `_add_note`: the cached question is the value of the
model's first field name (`fields.get(field_names[0], "") if field_names
else ""`), the field names defaulting to `["Front", "Back"]` for an unknown
model. -/
def derivedQuestion (st : MockAnkiState) (model_name : String)
    (fields : List (String × String)) : String :=
  match (alookup model_name st.models).getD ["Front", "Back"] with
  | [] => ""
  | fn :: _ => (alookup fn fields).getD ""

/-- Line 220 of `_add_note`: the cached answer is the value of the model's
second field name (`fields.get(field_names[1], "") if len(field_names) > 1
else ""`). -/
def derivedAnswer (st : MockAnkiState) (model_name : String)
    (fields : List (String × String)) : String :=
  match (alookup model_name st.models).getD ["Front", "Back"] with
  | _ :: fn :: _ => (alookup fn fields).getD ""
  | _ => ""

/-- The card created by `_add_note` (lines 213-229). -/
def newNoteCard (st : MockAnkiState) (deck_name model_name : String)
    (fields : List (String × String)) : MockCard :=
  { card_id := st.next_card_id, note_id := st.next_note_id,
    deck_name := deck_name,
    question := derivedQuestion st model_name fields,
    answer := derivedAnswer st model_name fields }

/-- `_add_note` (lines 183-235): reject a duplicate by returning `none` with
the state untouched; otherwise allocate a note id, store the note, register its
tags in the global tag set, create a single card whose question/answer are read
from the model's first two field names, and lazily create the deck. -/
def add_note (st : MockAnkiState) (deck_name model_name : String)
    (fields : List (String × String)) (tags : List String) :
    Option Nat × MockAnkiState :=
  if isDuplicate st deck_name fields then (none, st)
  else
    let note_id := st.next_note_id
    let note : MockNote :=
      { note_id := note_id, deck_name := deck_name, model_name := model_name,
        fields := fields, tags := tags }
    let st1 : MockAnkiState :=
      { st with notes := aset note_id note st.notes,
                next_note_id := st.next_note_id + 1,
                tags := setUnion st.tags tags }
    let card_id := st.next_card_id
    let card : MockCard := newNoteCard st deck_name model_name fields
    let st2 : MockAnkiState :=
      { st1 with cards := aset card_id card st1.cards,
                 next_card_id := st.next_card_id + 1 }
    let st3 := if akey deck_name st2.decks then st2 else (create_deck st2 deck_name).2
    (some note_id, st3)

/-- `_update_note_fields` (lines 509-522): merge the given fields into the
note, then for every card of that note overwrite the cached question when the
update holds the literal key `"Front"` and the cached answer when it holds
`"Back"`.  Unknown note ids are no-ops. -/
def update_note_fields (st : MockAnkiState) (note_id : Nat)
    (fields : List (String × String)) : MockAnkiState :=
  match alookup note_id st.notes with
  | none => st
  | some note =>
      let note' := { note with fields := dictUpdate note.fields fields }
      let cards' := st.cards.map (fun p =>
        if p.2.note_id == note_id then
          (p.1,
           { p.2 with
             question := (alookup "Front" fields).getD p.2.question,
             answer := (alookup "Back" fields).getD p.2.answer })
        else p)
      { st with notes := aset note_id note' st.notes, cards := cards' }

/-- One iteration of `_delete_notes` (lines 524-535): drop the note when
present, and drop every card whose `note_id` references it (the source collects
the keys of those cards and deletes each; since dict keys are unique this
removes exactly the entries whose `note_id` matches). -/
def delete_one (st : MockAnkiState) (note_id : Nat) : MockAnkiState :=
  let notes' := if akey note_id st.notes then adel note_id st.notes else st.notes
  let cards' := st.cards.filter (fun p => !(p.2.note_id == note_id))
  { st with notes := notes', cards := cards' }

/-- `_delete_notes` (lines 524-535): delete each listed note in turn. -/
def delete_notes (st : MockAnkiState) (note_ids : List Nat) : MockAnkiState :=
  note_ids.foldl delete_one st

/-- The loop shape `for card_id in card_ids: if card_id in cards: mutate`,
shared by `_suspend`, `_unsuspend`, `_change_deck` and `_forget_cards`. -/
def foldUpdateCards (g : MockCard → MockCard) (card_ids : List Nat)
    (st : MockAnkiState) : MockAnkiState :=
  card_ids.foldl
    (fun s cid =>
      match alookup cid s.cards with
      | some card => { s with cards := aset cid (g card) s.cards }
      | none => s)
    st

/-- `_change_deck` (lines 537-547): ensure the target deck exists, then set the
deck name of every listed existing card. -/
def change_deck (st : MockAnkiState) (card_ids : List Nat) (deck_name : String) :
    MockAnkiState :=
  let st1 := if akey deck_name st.decks then st else (create_deck st deck_name).2
  foldUpdateCards (fun card => { card with deck_name := deck_name }) card_ids st1

/-- Default `str.split()`: split on whitespace runs, discarding empty pieces. -/
def pySplit (s : String) : List String :=
  (s.split Char.isWhitespace).filter (fun t => t != "")

/-- `_add_tags` (lines 315-323): extend each listed existing note's tag list
and register the new tags in the global tag set. -/
def add_tags (st : MockAnkiState) (note_ids : List Nat) (tags_str : String) :
    MockAnkiState :=
  let new_tags := pySplit tags_str
  note_ids.foldl
    (fun s nid =>
      match alookup nid s.notes with
      | some note =>
          let note' := { note with tags := note.tags ++ new_tags }
          { s with notes := aset nid note' s.notes, tags := setUnion s.tags new_tags }
      | none => s)
    st

/-- `_remove_tags` (lines 549-559): filter the removed tags out of each listed
existing note's tag list. -/
def remove_tags (st : MockAnkiState) (note_ids : List Nat) (tags_str : String) :
    MockAnkiState :=
  let tags_to_remove := pySplit tags_str
  note_ids.foldl
    (fun s nid =>
      match alookup nid s.notes with
      | some note =>
          let note' := { note with tags := note.tags.filter (fun t => !(tags_to_remove.contains t)) }
          { s with notes := aset nid note' s.notes }
      | none => s)
    st

/-- `_suspend` (lines 479-484). -/
def suspend (st : MockAnkiState) (card_ids : List Nat) : Bool × MockAnkiState :=
  (true, foldUpdateCards (fun card => { card with suspended := true }) card_ids st)

/-- `_unsuspend` (lines 486-491). -/
def unsuspend (st : MockAnkiState) (card_ids : List Nat) : Bool × MockAnkiState :=
  (true, foldUpdateCards (fun card => { card with suspended := false }) card_ids st)

/-- The per-card reset of `_forget_cards` (lines 568-573). -/
def resetCard (card : MockCard) : MockCard :=
  { card with queue := 0, type := 0, interval := 0, factor := 2500, lapses := 0, due := 0 }

/-- `_forget_cards` (lines 563-573): full scheduling reset of every listed
existing card; unknown ids are skipped. -/
def forget_cards (st : MockAnkiState) (card_ids : List Nat) : MockAnkiState :=
  foldUpdateCards resetCard card_ids st

/-- `_set_ease_factors` (lines 575-587): pairwise assignment by position with a
per-card success flag. -/
def set_ease_factors (st : MockAnkiState) (card_ids ease_factors : List Nat) :
    List Bool × MockAnkiState :=
  (card_ids.zip ease_factors).foldl
    (fun acc p =>
      match alookup p.1 acc.2.cards with
      | some card =>
          (acc.1 ++ [true], { acc.2 with cards := aset p.1 ({ card with factor := p.2 }) acc.2.cards })
      | none => (acc.1 ++ [false], acc.2))
    ([], st)

/-- The `prop:ease<N` branch of `_card_matches_query` (lines 399-407) for a
query holding only that predicate, with the threshold already extracted by the
regex: the card is excluded exactly when `card.factor / 1000 >= threshold`
(the Python float division is modelled as exact division in `ℚ`). -/
def card_matches_ease_query (card : MockCard) (threshold : ℚ) : Bool :=
  if (card.factor : ℚ) / 1000 ≥ threshold then false else true

/-- The whitespace characters removed by Python `str.strip()` (ASCII range). -/
def isPySpace (c : Char) : Bool :=
  c == ' ' || c == '\t' || c == '\n' || c == '\r' || c == '\x0b' || c == '\x0c'

/-- Python `str.strip()`: drop whitespace from both ends. -/
def pyStrip (l : List Char) : List Char :=
  ((l.dropWhile isPySpace).reverse.dropWhile isPySpace).reverse

/-- The replacement text `\x7b\x7bc1::<match>\x7d\x7d` substituted by
`format_sentence_cloze`; the backreference is the escaped literal target, so
the match is the target itself. -/
def clozeRepl (t : List Char) : List Char :=
  "\x7b\x7bc1::".data ++ t ++ "\x7d\x7d".data

/-- Whether `t` occurs as a contiguous substring of the argument. -/
def occursIn (t : List Char) : List Char → Bool
  | [] => t.isEmpty
  | c :: rest => t.isPrefixOf (c :: rest) || occursIn t rest

/-- `re.sub(re.escape(t), r, s, count=1)`: replace the leftmost occurrence of
the literal `t` by `r`, leaving the text unchanged when `t` does not occur
(for empty `t`, Python substitutes at position 0). -/
def replaceFirstAux (t r : List Char) : List Char → List Char
  | [] => if t.isEmpty then r else []
  | c :: rest =>
      if t.isPrefixOf (c :: rest) then r ++ (c :: rest).drop t.length
      else c :: replaceFirstAux t r rest

/-- `format_sentence_cloze` of `src/anki_mcp/spanish.py` (lines 97-131): strip
both inputs, then substitute the first case-sensitive occurrence of the
escaped target by the `\x7b\x7bc1::...\x7d\x7d` markup via `re.sub` with
`count=1`. -/
def format_sentence_cloze (spanish target : String) : String :=
  String.mk (replaceFirstAux (pyStrip target.data)
    (clozeRepl (pyStrip target.data)) (pyStrip spanish.data))

/-- A review-queue card with low ease (the `add_problem_card` helper shape,
factor 1500). -/
def lowEaseCard : MockCard :=
  { card_id := 1, note_id := 1, deck_name := "Default", question := "q",
    answer := "a", factor := 1500, interval := 10, queue := 2 }

/-- A review-queue card with the default ease factor 2500. -/
def normalEaseCard : MockCard :=
  { card_id := 2, note_id := 2, deck_name := "Default", question := "q",
    answer := "a", factor := 2500, interval := 10, queue := 2 }

/-- The initial state after adding one Basic note. -/
def exSt1 : MockAnkiState :=
  (add_note initState "Default" "Basic" [("Front", "Q"), ("Back", "A")] []).2

/-- `exSt1` after adding a second, distinct Basic note. -/
def exSt2 : MockAnkiState :=
  (add_note exSt1 "Default" "Basic" [("Front", "Q2"), ("Back", "A2")] []).2

/-- The initial state after adding one Cloze note. -/
def exStCloze : MockAnkiState :=
  (add_note initState "Default" "Cloze" [("Text", "hola"), ("Extra", "x")] []).2

/-- Referential integrity: every card's `note_id` names an existing note. -/
def cardRefsValid (st : MockAnkiState) : Prop :=
  ∀ p ∈ st.cards, akey p.2.note_id st.notes = true

/-- One public mutating operation of the mock backend, relating a state to the
state after the operation. -/
inductive AnkiStep : MockAnkiState → MockAnkiState → Prop where
  | createDeck (st : MockAnkiState) (name : String) :
      AnkiStep st (create_deck st name).2
  | addNote (st : MockAnkiState) (d m : String) (fields : List (String × String))
      (tags : List String) : AnkiStep st (add_note st d m fields tags).2
  | updateNoteFields (st : MockAnkiState) (nid : Nat)
      (fields : List (String × String)) :
      AnkiStep st (update_note_fields st nid fields)
  | deleteNotes (st : MockAnkiState) (ids : List Nat) :
      AnkiStep st (delete_notes st ids)
  | changeDeck (st : MockAnkiState) (ids : List Nat) (deck : String) :
      AnkiStep st (change_deck st ids deck)
  | addTags (st : MockAnkiState) (ids : List Nat) (tags_str : String) :
      AnkiStep st (add_tags st ids tags_str)
  | removeTags (st : MockAnkiState) (ids : List Nat) (tags_str : String) :
      AnkiStep st (remove_tags st ids tags_str)
  | suspendCards (st : MockAnkiState) (ids : List Nat) :
      AnkiStep st (suspend st ids).2
  | unsuspendCards (st : MockAnkiState) (ids : List Nat) :
      AnkiStep st (unsuspend st ids).2
  | forgetCards (st : MockAnkiState) (ids : List Nat) :
      AnkiStep st (forget_cards st ids)
  | setEaseFactors (st : MockAnkiState) (ids vals : List Nat) :
      AnkiStep st (set_ease_factors st ids vals).2

/-- States reachable from the fresh mock backend through public operations. -/
inductive Reachable : MockAnkiState → Prop where
  | init : Reachable initState
  | step {s s' : MockAnkiState} : Reachable s → AnkiStep s s' → Reachable s'

section AssocLemmas

variable {κ β : Type} [DecidableEq κ]

theorem alookup_aset_self (k : κ) (v : β) (d : List (κ × β)) :
    alookup k (aset k v d) = some v := by
  induction d with
  | nil => simp [aset, alookup]
  | cons hd tl ih =>
      by_cases h : hd.1 = k
      · simp [aset, alookup, h]
      · simpa [aset, alookup, h] using ih

theorem alookup_aset_ne {k k' : κ} (v : β) (d : List (κ × β)) (h : k' ≠ k) :
    alookup k' (aset k v d) = alookup k' d := by
  induction d with
  | nil => simp [aset, alookup, Ne.symm h]
  | cons hd tl ih =>
      by_cases hh : hd.1 = k
      · simp [aset, alookup, hh, Ne.symm h]
      · by_cases hh' : hd.1 = k'
        · simp [aset, alookup, hh, hh', h]
        · simpa [aset, alookup, hh, hh'] using ih

theorem mem_aset {p : κ × β} {k : κ} {v : β} {d : List (κ × β)}
    (h : p ∈ aset k v d) : p = (k, v) ∨ p ∈ d := by
  induction d with
  | nil => simpa [aset] using h
  | cons hd tl ih =>
      by_cases hh : hd.1 = k
      · rw [aset] at h
        simp only [hh, if_pos] at h
        rcases List.mem_cons.1 h with h1 | h1
        · exact Or.inl h1
        · exact Or.inr (List.mem_cons_of_mem _ h1)
      · rw [aset] at h
        simp only [hh, if_neg, not_false_iff] at h
        rcases List.mem_cons.1 h with h1 | h1
        · exact Or.inr (by simp [h1])
        · rcases ih h1 with h2 | h2
          · exact Or.inl h2
          · exact Or.inr (List.mem_cons_of_mem _ h2)

theorem mem_aset_self (k : κ) (v : β) (d : List (κ × β)) : (k, v) ∈ aset k v d := by
  induction d with
  | nil => simp [aset]
  | cons hd tl ih =>
      by_cases hh : hd.1 = k
      · simp [aset, hh]
      · rw [aset]
        simp only [hh, if_neg, not_false_iff]
        exact List.mem_cons_of_mem _ ih

theorem alookup_mem {k : κ} {v : β} {d : List (κ × β)}
    (h : alookup k d = some v) : (k, v) ∈ d := by
  induction d with
  | nil => simp [alookup] at h
  | cons hd tl ih =>
      by_cases hh : hd.1 = k
      · rw [alookup] at h
        simp only [hh, if_pos] at h
        have : hd = (k, v) := by
          cases hd
          simp_all
        simp [this]
      · rw [alookup] at h
        simp only [hh, if_neg, not_false_iff] at h
        exact List.mem_cons_of_mem _ (ih h)

theorem akey_aset_of {k' : κ} (k : κ) (v : β) {d : List (κ × β)}
    (h : akey k' d = true) : akey k' (aset k v d) = true := by
  by_cases hk : k' = k
  · subst hk
    simp [akey, alookup_aset_self]
  · rwa [akey, alookup_aset_ne v d hk]

theorem akey_aset_self (k : κ) (v : β) (d : List (κ × β)) :
    akey k (aset k v d) = true := by
  simp [akey, alookup_aset_self]

theorem alookup_adel_ne {k k' : κ} (d : List (κ × β)) (h : k' ≠ k) :
    alookup k' (adel k d) = alookup k' d := by
  induction d with
  | nil => simp [adel]
  | cons hd tl ih =>
      by_cases hh : hd.1 = k
      · simp [adel, alookup, hh, Ne.symm h]
      · by_cases hh' : hd.1 = k'
        · simp [adel, alookup, hh, hh', h]
        · simpa [adel, alookup, hh, hh'] using ih

theorem alookup_eq_none {k : κ} {d : List (κ × β)}
    (h : k ∉ d.map Prod.fst) : alookup k d = none := by
  induction d with
  | nil => simp [alookup]
  | cons hd tl ih =>
      simp only [List.map_cons, List.mem_cons, not_or] at h
      rw [alookup, if_neg (fun hc => h.1 hc.symm)]
      exact ih h.2

theorem alookup_adel_self {k : κ} {d : List (κ × β)}
    (hnd : (d.map Prod.fst).Nodup) : alookup k (adel k d) = none := by
  induction d with
  | nil => simp [adel, alookup]
  | cons hd tl ih =>
      rw [List.map_cons, List.nodup_cons] at hnd
      by_cases hh : hd.1 = k
      · rw [adel, if_pos hh]
        exact alookup_eq_none (hh ▸ hnd.1)
      · rw [adel, if_neg hh, alookup, if_neg hh]
        exact ih hnd.2

end AssocLemmas

theorem create_deck_notes (st : MockAnkiState) (name : String) :
    (create_deck st name).2.notes = st.notes := by
  cases h : alookup name st.decks <;> simp [create_deck, h]

theorem create_deck_cards (st : MockAnkiState) (name : String) :
    (create_deck st name).2.cards = st.cards := by
  cases h : alookup name st.decks <;> simp [create_deck, h]

theorem akey_create_deck_self (st : MockAnkiState) (name : String) :
    akey name (create_deck st name).2.decks = true := by
  cases h : alookup name st.decks with
  | none => simp [create_deck, h, akey_aset_self]
  | some i => simp [create_deck, h, akey, alookup, h]

theorem foldUpdateCards_notes (g : MockCard → MockCard) (ids : List Nat)
    (st : MockAnkiState) : (foldUpdateCards g ids st).notes = st.notes := by
  induction ids generalizing st with
  | nil => rfl
  | cons c rest ih =>
      rw [foldUpdateCards, List.foldl_cons]
      cases h : alookup c st.cards <;> simpa [foldUpdateCards, h] using ih _

theorem foldUpdateCards_decks (g : MockCard → MockCard) (ids : List Nat)
    (st : MockAnkiState) : (foldUpdateCards g ids st).decks = st.decks := by
  induction ids generalizing st with
  | nil => rfl
  | cons c rest ih =>
      rw [foldUpdateCards, List.foldl_cons]
      cases h : alookup c st.cards <;> simpa [foldUpdateCards, h] using ih _

theorem foldUpdateCards_cons_some (g : MockCard → MockCard) {c : Nat}
    {st : MockAnkiState} {card : MockCard} (hc : alookup c st.cards = some card)
    (rest : List Nat) :
    foldUpdateCards g (c :: rest) st =
      foldUpdateCards g rest { st with cards := aset c (g card) st.cards } := by
  rw [foldUpdateCards, List.foldl_cons]
  simp only [hc]
  rfl

theorem foldUpdateCards_cons_none (g : MockCard → MockCard) {c : Nat}
    {st : MockAnkiState} (hc : alookup c st.cards = none) (rest : List Nat) :
    foldUpdateCards g (c :: rest) st = foldUpdateCards g rest st := by
  rw [foldUpdateCards, List.foldl_cons]
  simp only [hc]
  rfl

theorem alookup_foldUpdateCards_not_mem (g : MockCard → MockCard)
    {cid : Nat} {ids : List Nat} {st : MockAnkiState} (h : cid ∉ ids) :
    alookup cid (foldUpdateCards g ids st).cards = alookup cid st.cards := by
  induction ids generalizing st with
  | nil => rfl
  | cons c rest ih =>
      simp only [List.mem_cons, not_or] at h
      cases hc : alookup c st.cards with
      | none => rw [foldUpdateCards_cons_none g hc]; exact ih h.2
      | some card =>
          rw [foldUpdateCards_cons_some g hc, ih h.2]
          exact alookup_aset_ne _ _ h.1

theorem alookup_foldUpdateCards_none (g : MockCard → MockCard)
    {cid : Nat} {ids : List Nat} {st : MockAnkiState}
    (hc : alookup cid st.cards = none) :
    alookup cid (foldUpdateCards g ids st).cards = none := by
  induction ids generalizing st with
  | nil => exact hc
  | cons c rest ih =>
      cases h : alookup c st.cards with
      | none => rw [foldUpdateCards_cons_none g h]; exact ih hc
      | some card =>
          have hne : cid ≠ c := fun he => by rw [he, h] at hc; cases hc
          rw [foldUpdateCards_cons_some g h]
          exact ih (by rw [alookup_aset_ne _ _ hne]; exact hc)

theorem alookup_foldUpdateCards_mem (g : MockCard → MockCard)
    (hg : ∀ c, g (g c) = g c) {cid : Nat} {ids : List Nat}
    {st : MockAnkiState} {card : MockCard}
    (hmem : cid ∈ ids) (hc : alookup cid st.cards = some card) :
    alookup cid (foldUpdateCards g ids st).cards = some (g card) := by
  induction ids generalizing st card with
  | nil => cases hmem
  | cons c rest ih =>
      by_cases hcc : c = cid
      · subst hcc
        rw [foldUpdateCards_cons_some g hc]
        by_cases hr : c ∈ rest
        · have h2 : alookup c
              ({ st with cards := aset c (g card) st.cards } : MockAnkiState).cards =
              some (g card) := alookup_aset_self _ _ _
          have h3 := ih hr h2
          rwa [hg] at h3
        · rw [alookup_foldUpdateCards_not_mem g hr]
          exact alookup_aset_self _ _ _
      · have hr : cid ∈ rest := by
          rcases List.mem_cons.1 hmem with h1 | h1
          · exact absurd h1.symm hcc
          · exact h1
        cases h : alookup c st.cards with
        | none => rw [foldUpdateCards_cons_none g h]; exact ih hr hc
        | some card2 =>
            rw [foldUpdateCards_cons_some g h]
            exact ih hr (by rw [alookup_aset_ne _ _ (Ne.symm hcc)]; exact hc)

theorem add_note_of_duplicate {st : MockAnkiState} {d m : String}
    {fields : List (String × String)} {tags : List String}
    (h : isDuplicate st d fields = true) :
    add_note st d m fields tags = (none, st) := by
  simp [add_note, h]

theorem add_note_fst {st : MockAnkiState} {d m : String}
    {fields : List (String × String)} {tags : List String}
    (h : isDuplicate st d fields = false) :
    (add_note st d m fields tags).1 = some st.next_note_id := by
  rw [add_note, if_neg (by simp [h])]

theorem add_note_snd_notes {st : MockAnkiState} {d m : String}
    {fields : List (String × String)} {tags : List String}
    (h : isDuplicate st d fields = false) :
    (add_note st d m fields tags).2.notes =
      aset st.next_note_id
        { note_id := st.next_note_id, deck_name := d, model_name := m,
          fields := fields, tags := tags } st.notes := by
  rw [add_note, if_neg (by simp [h])]
  simp only []
  split
  · rfl
  · rw [create_deck_notes]

theorem add_note_snd_cards {st : MockAnkiState} {d m : String}
    {fields : List (String × String)} {tags : List String}
    (h : isDuplicate st d fields = false) :
    (add_note st d m fields tags).2.cards =
      aset st.next_card_id (newNoteCard st d m fields) st.cards := by
  rw [add_note, if_neg (by simp [h])]
  simp only []
  split
  · rfl
  · rw [create_deck_cards]

theorem cardRefsValid_aset (st : MockAnkiState) {cid : Nat} {card : MockCard}
    (card' : MockCard) (hl : alookup cid st.cards = some card)
    (hid : card'.note_id = card.note_id) (h : cardRefsValid st) :
    ∀ p ∈ aset cid card' st.cards, akey p.2.note_id st.notes = true := by
  intro p hp
  rcases mem_aset hp with rfl | hp'
  · show akey card'.note_id st.notes = true
    rw [hid]
    exact h (cid, card) (alookup_mem hl)
  · exact h p hp'

theorem cardRefsValid_foldUpdateCards (g : MockCard → MockCard)
    (hg : ∀ c, (g c).note_id = c.note_id) {ids : List Nat} {st : MockAnkiState}
    (h : cardRefsValid st) : cardRefsValid (foldUpdateCards g ids st) := by
  induction ids generalizing st with
  | nil => exact h
  | cons c rest ih =>
      cases hc : alookup c st.cards with
      | none => rw [foldUpdateCards_cons_none g hc]; exact ih h
      | some card =>
          rw [foldUpdateCards_cons_some g hc]
          exact ih (fun p hp => cardRefsValid_aset st (g card) hc (hg card) h p hp)

theorem cardRefsValid_foldl {α : Type} (f : MockAnkiState → α → MockAnkiState)
    (hf : ∀ s a, cardRefsValid s → cardRefsValid (f s a)) (l : List α)
    (st : MockAnkiState) (h : cardRefsValid st) :
    cardRefsValid (List.foldl f st l) := by
  induction l generalizing st with
  | nil => exact h
  | cons c rest ih => exact ih _ (hf st c h)

theorem cardRefsValid_initState : cardRefsValid initState := by
  intro p hp
  cases hp

theorem cardRefsValid_create_deck (st : MockAnkiState) (name : String)
    (h : cardRefsValid st) : cardRefsValid (create_deck st name).2 := by
  intro p hp
  rw [create_deck_notes]
  exact h p (by rwa [create_deck_cards] at hp)

theorem cardRefsValid_add_note (st : MockAnkiState) (d m : String)
    (fields : List (String × String)) (tags : List String)
    (h : cardRefsValid st) : cardRefsValid (add_note st d m fields tags).2 := by
  by_cases hd : isDuplicate st d fields = true
  · rw [add_note_of_duplicate hd]
    exact h
  · have hd' : isDuplicate st d fields = false := by simpa using hd
    intro p hp
    rw [add_note_snd_notes hd']
    rw [add_note_snd_cards hd'] at hp
    rcases mem_aset hp with rfl | hp'
    · show akey (newNoteCard st d m fields).note_id _ = true
      exact akey_aset_self _ _ _
    · exact akey_aset_of _ _ (h p hp')

theorem cardRefsValid_update_note_fields (st : MockAnkiState) (nid : Nat)
    (fields : List (String × String)) (h : cardRefsValid st) :
    cardRefsValid (update_note_fields st nid fields) := by
  rw [update_note_fields]
  cases hn : alookup nid st.notes with
  | none => exact h
  | some note =>
      intro p hp
      rcases List.mem_map.1 hp with ⟨q, hq, rfl⟩
      by_cases hb : (q.2.note_id == nid) = true
      · rw [if_pos hb]
        show akey q.2.note_id (aset nid _ st.notes) = true
        exact akey_aset_of _ _ (h q hq)
      · rw [if_neg hb]
        show akey q.2.note_id (aset nid _ st.notes) = true
        exact akey_aset_of _ _ (h q hq)

theorem cardRefsValid_delete_one (st : MockAnkiState) (nid : Nat)
    (h : cardRefsValid st) : cardRefsValid (delete_one st nid) := by
  intro p hp
  rw [delete_one] at hp
  have hmem := List.mem_filter.1 hp
  have hne : p.2.note_id ≠ nid := by simpa using hmem.2
  have hk := h p hmem.1
  rw [delete_one]
  show akey p.2.note_id (if akey nid st.notes = true then adel nid st.notes else st.notes) = true
  split
  · rw [akey] at hk ⊢
    rwa [alookup_adel_ne _ hne]
  · exact hk

theorem cardRefsValid_delete_notes (st : MockAnkiState) (ids : List Nat)
    (h : cardRefsValid st) : cardRefsValid (delete_notes st ids) :=
  cardRefsValid_foldl delete_one (fun s a hs => cardRefsValid_delete_one s a hs) ids st h

theorem cardRefsValid_change_deck (st : MockAnkiState) (ids : List Nat)
    (deck : String) (h : cardRefsValid st) :
    cardRefsValid (change_deck st ids deck) := by
  rw [change_deck]
  have hbase : cardRefsValid (if akey deck st.decks = true then st else (create_deck st deck).2) := by
    split
    · exact h
    · exact cardRefsValid_create_deck _ _ h
  exact cardRefsValid_foldUpdateCards (fun card => { card with deck_name := deck })
    (fun c => rfl) hbase

theorem cardRefsValid_add_tags (st : MockAnkiState) (ids : List Nat)
    (tags_str : String) (h : cardRefsValid st) :
    cardRefsValid (add_tags st ids tags_str) := by
  rw [add_tags]
  apply cardRefsValid_foldl _ _ ids st h
  intro s nid hs
  cases hn : alookup nid s.notes with
  | none => exact hs
  | some note =>
      intro p hp
      show akey p.2.note_id (aset nid _ s.notes) = true
      exact akey_aset_of _ _ (hs p hp)

theorem cardRefsValid_remove_tags (st : MockAnkiState) (ids : List Nat)
    (tags_str : String) (h : cardRefsValid st) :
    cardRefsValid (remove_tags st ids tags_str) := by
  rw [remove_tags]
  apply cardRefsValid_foldl _ _ ids st h
  intro s nid hs
  cases hn : alookup nid s.notes with
  | none => exact hs
  | some note =>
      intro p hp
      show akey p.2.note_id (aset nid _ s.notes) = true
      exact akey_aset_of _ _ (hs p hp)

theorem cardRefsValid_suspend (st : MockAnkiState) (ids : List Nat)
    (h : cardRefsValid st) : cardRefsValid (suspend st ids).2 :=
  cardRefsValid_foldUpdateCards (fun card => { card with suspended := true })
    (fun c => rfl) h

theorem cardRefsValid_unsuspend (st : MockAnkiState) (ids : List Nat)
    (h : cardRefsValid st) : cardRefsValid (unsuspend st ids).2 :=
  cardRefsValid_foldUpdateCards (fun card => { card with suspended := false })
    (fun c => rfl) h

theorem cardRefsValid_forget_cards (st : MockAnkiState) (ids : List Nat)
    (h : cardRefsValid st) : cardRefsValid (forget_cards st ids) :=
  cardRefsValid_foldUpdateCards resetCard (fun c => rfl) h

theorem cardRefsValid_set_ease_factors (st : MockAnkiState)
    (ids vals : List Nat) (h : cardRefsValid st) :
    cardRefsValid (set_ease_factors st ids vals).2 := by
  rw [set_ease_factors]
  have main : ∀ (l : List (Nat × Nat)) (bs : List Bool) (s : MockAnkiState),
      cardRefsValid s →
      cardRefsValid ((l.foldl
        (fun acc p =>
          match alookup p.1 acc.2.cards with
          | some card =>
              (acc.1 ++ [true],
               { acc.2 with cards := aset p.1 ({ card with factor := p.2 }) acc.2.cards })
          | none => (acc.1 ++ [false], acc.2)) (bs, s))).2 := by
    intro l
    induction l with
    | nil => intro bs s hs; exact hs
    | cons c rest ih =>
        intro bs s hs
        simp only [List.foldl_cons]
        cases hc : alookup c.1 s.cards with
        | none => exact ih _ _ hs
        | some card =>
            exact ih _ _
              (fun p hp => cardRefsValid_aset s ({ card with factor := c.2 }) hc rfl hs p hp)
  exact main _ [] st h

theorem isPrefixOf_append (t post : List Char) : t.isPrefixOf (t ++ post) = true := by
  induction t with
  | nil => simp [List.isPrefixOf]
  | cons c cs ih => simp [List.isPrefixOf, ih]

theorem replaceFirstAux_of_not_occurs {t : List Char} (r : List Char)
    {s : List Char} (h : occursIn t s = false) : replaceFirstAux t r s = s := by
  induction s with
  | nil =>
      rw [occursIn] at h
      rw [replaceFirstAux, if_neg (by simp [h])]
  | cons c rest ih =>
      rw [occursIn, Bool.or_eq_false_iff] at h
      rw [replaceFirstAux, if_neg (by simp [h.1]), ih h.2]

theorem replaceFirstAux_head (t r s : List Char) (ht : t.isPrefixOf s = true) :
    replaceFirstAux t r s = r ++ s.drop t.length := by
  cases s with
  | nil =>
      cases t with
      | nil => rw [replaceFirstAux]; simp
      | cons a as => simp [List.isPrefixOf] at ht
  | cons c rest => rw [replaceFirstAux, if_pos ht]

theorem replaceFirstAux_first_occurrence (t r pre post : List Char)
    (hmin : ∀ i, i < pre.length →
      t.isPrefixOf (List.drop i (pre ++ t ++ post)) = false) :
    replaceFirstAux t r (pre ++ t ++ post) = pre ++ r ++ post := by
  induction pre with
  | nil =>
      rw [List.nil_append, List.nil_append,
          replaceFirstAux_head t r (t ++ post) (isPrefixOf_append t post),
          List.drop_left]
  | cons c pre' ih =>
      have h0 := hmin 0 (by simp)
      rw [List.drop_zero] at h0
      rw [show (c :: pre') ++ t ++ post = c :: (pre' ++ t ++ post) from rfl] at h0 ⊢
      rw [replaceFirstAux, if_neg (by rw [h0]; exact Bool.false_ne_true)]
      rw [ih (fun i hi => by
        have hs := hmin (i + 1) (by simpa using Nat.succ_lt_succ hi)
        rw [show (c :: pre') ++ t ++ post = c :: (pre' ++ t ++ post) from rfl,
            List.drop_succ_cons] at hs
        exact hs)]
      rfl

/-- C1 (counterexample): the claim quantifies over every state, but at a state
that already contains a note with the same deck name and first-field value
(here `exSt1`, produced by one earlier submission of the very same note), the
FIRST of the two submissions already returns no id instead of a newly
allocated one. -/
theorem C1_counterexample :
    (add_note exSt1 "Default" "Basic" [("Front", "Q"), ("Back", "A")] []).1 = none := by
  decide

/-- C1 (amended): provided the state does not already contain a note with the
same deck name and the same first-field value, submitting a note twice via
addNote returns the freshly allocated id `st.next_note_id` on the first call
and no id (`none`) on the second, the duplicate being rejected without
raising. -/
theorem C1_add_note_twice (st : MockAnkiState) (d m : String)
    (fields : List (String × String)) (tags : List String)
    (h : isDuplicate st d fields = false) :
    (add_note st d m fields tags).1 = some st.next_note_id ∧
    (add_note (add_note st d m fields tags).2 d m fields tags).1 = none := by
  refine ⟨add_note_fst h, ?_⟩
  have hdup : isDuplicate (add_note st d m fields tags).2 d fields = true := by
    rw [isDuplicate, List.any_eq_true]
    refine ⟨(st.next_note_id,
      { note_id := st.next_note_id, deck_name := d, model_name := m,
        fields := fields, tags := tags }), ?_, ?_⟩
    · rw [add_note_snd_notes h]
      exact mem_aset_self _ _ _
    · simp
  rw [add_note_of_duplicate hdup]

/-- C1 (witness): the amended claim evaluated from the fresh state. -/
theorem C1_witness :
    (add_note initState "Default" "Basic" [("Front", "Q"), ("Back", "A")] []).1 =
      some 1000000000 ∧
    (add_note exSt1 "Default" "Basic" [("Front", "Q"), ("Back", "A")] []).1 = none := by
  have h := C1_add_note_twice initState "Default" "Basic"
    [("Front", "Q"), ("Back", "A")] [] (by decide)
  exact ⟨h.1, h.2⟩

/-- C9: create_deck is idempotent: an existing deck name returns its stored id
with the state unchanged; an absent name is allocated the next deck id; a
second call with the same name returns the same id as the first. -/
theorem C9_create_deck_idempotent (st : MockAnkiState) (name : String) :
    (∀ i, alookup name st.decks = some i → create_deck st name = (i, st)) ∧
    (alookup name st.decks = none →
      (create_deck st name).1 = st.next_deck_id ∧
      alookup name (create_deck st name).2.decks = some st.next_deck_id) ∧
    (create_deck (create_deck st name).2 name).1 = (create_deck st name).1 := by
  refine ⟨?_, ?_, ?_⟩
  · intro i hi
    simp [create_deck, hi]
  · intro hn
    constructor
    · simp [create_deck, hn]
    · simp [create_deck, hn, alookup_aset_self]
  · cases hi : alookup name st.decks with
    | some i => simp [create_deck, hi]
    | none => simp [create_deck, hi, alookup_aset_self]

/-- C9 (witness): the existing deck "Default" keeps id 1 and the state; the
new deck "Spanish" is allocated id 100 and a repeated call returns it again. -/
theorem C9_witness :
    create_deck initState "Default" = (1, initState) ∧
    (create_deck initState "Spanish").1 = 100 ∧
    (create_deck (create_deck initState "Spanish").2 "Spanish").1 =
      (create_deck initState "Spanish").1 := by
  have h1 := C9_create_deck_idempotent initState "Default"
  have h2 := C9_create_deck_idempotent initState "Spanish"
  exact ⟨h1.1 1 (by decide), (h2.2.1 (by decide)).1, h2.2.2⟩

/-- C10: duplicate rejection in addNote is atomic: whenever the duplicate
check fires (an existing note has the same deck name and first-field value),
addNote returns `none` with the entire state unchanged: no note, card, tag,
counter or deck is touched. -/
theorem C10_add_note_duplicate_atomic (st : MockAnkiState) (d m : String)
    (fields : List (String × String)) (tags : List String)
    (h : isDuplicate st d fields = true) :
    add_note st d m fields tags = (none, st) :=
  add_note_of_duplicate h

/-- C10 (witness): resubmitting the note of `exSt1` returns `none` and leaves
the state exactly `exSt1`. -/
theorem C10_witness :
    add_note exSt1 "Default" "Basic" [("Front", "Q"), ("Back", "B")] ["t"] =
      (none, exSt1) :=
  C10_add_note_duplicate_atomic exSt1 "Default" "Basic"
    [("Front", "Q"), ("Back", "B")] ["t"] (by decide)

/-- C4: change_deck creates the target deck when absent and sets the deck
attribute of every listed existing card to the target; the notes (hence every
owning note's deck attribute), all unlisted cards, and all other fields of the
listed cards are unchanged. -/
theorem C4_change_deck_spec (st : MockAnkiState) (card_ids : List Nat)
    (deck : String) :
    akey deck (change_deck st card_ids deck).decks = true ∧
    (change_deck st card_ids deck).notes = st.notes ∧
    (∀ cid card, alookup cid st.cards = some card → cid ∉ card_ids →
      alookup cid (change_deck st card_ids deck).cards = some card) ∧
    (∀ cid card, alookup cid st.cards = some card → cid ∈ card_ids →
      alookup cid (change_deck st card_ids deck).cards =
        some ({ card with deck_name := deck })) := by
  have hbc : (if akey deck st.decks = true then st else (create_deck st deck).2).cards
      = st.cards := by
    split
    · rfl
    · exact create_deck_cards st deck
  have hbn : (if akey deck st.decks = true then st else (create_deck st deck).2).notes
      = st.notes := by
    split
    · rfl
    · exact create_deck_notes st deck
  refine ⟨?_, ?_, ?_, ?_⟩
  · rw [change_deck, foldUpdateCards_decks]
    split
    · assumption
    · exact akey_create_deck_self st deck
  · rw [change_deck, foldUpdateCards_notes, hbn]
  · intro cid card hc hnot
    rw [change_deck, alookup_foldUpdateCards_not_mem _ hnot, hbc, hc]
  · intro cid card hc hmem
    rw [change_deck]
    exact alookup_foldUpdateCards_mem (fun c => { c with deck_name := deck })
      (fun c => rfl) hmem (by rw [hbc]; exact hc)

/-- C4 (witness): moving the only card of `exSt1` to the fresh deck "Spanish"
rewrites the card's deck attribute only, and leaves the notes (including the
owning note's deck attribute) unchanged. -/
theorem C4_witness :
    alookup 1000000000 (change_deck exSt1 [1000000000] "Spanish").cards =
      some { card_id := 1000000000, note_id := 1000000000, deck_name := "Spanish",
             question := "Q", answer := "A" } ∧
    (change_deck exSt1 [1000000000] "Spanish").notes = exSt1.notes := by
  have h := C4_change_deck_spec exSt1 [1000000000] "Spanish"
  refine ⟨?_, h.2.1⟩
  exact h.2.2.2 1000000000
    { card_id := 1000000000, note_id := 1000000000, deck_name := "Default",
      question := "Q", answer := "A" } (by decide) (by decide)

/-- C5: deleting note `a` removes it from the notes and removes exactly the
cards whose note id references `a`; every other note (in particular a second
note `b` of the same deck) and every card referencing another note are
unchanged.  The key-uniqueness hypothesis restates the uniqueness of Python
dict keys. -/
theorem C5_delete_notes_spec (st : MockAnkiState) (a : Nat)
    (hnd : (st.notes.map Prod.fst).Nodup) :
    alookup a (delete_notes st [a]).notes = none ∧
    (∀ b, b ≠ a → alookup b (delete_notes st [a]).notes = alookup b st.notes) ∧
    (delete_notes st [a]).cards = st.cards.filter (fun p => !(p.2.note_id == a)) := by
  have hde : delete_notes st [a] = delete_one st a := rfl
  rw [hde]
  refine ⟨?_, ?_, rfl⟩
  · show alookup a (if akey a st.notes = true then adel a st.notes else st.notes) = none
    split
    · exact alookup_adel_self hnd
    · next hfalse =>
        cases ho : alookup a st.notes with
        | none => rfl
        | some v => rw [akey, ho] at hfalse; simp at hfalse
  · intro b hb
    show alookup b (if akey a st.notes = true then adel a st.notes else st.notes) =
      alookup b st.notes
    split
    · exact alookup_adel_ne _ hb
    · rfl

/-- C5 (witness): deleting the first note of `exSt2` (two distinct notes in the
same deck) removes that note and its card, and leaves the second note and its
card in place. -/
theorem C5_witness :
    alookup 1000000000 (delete_notes exSt2 [1000000000]).notes = none ∧
    alookup 1000000001 (delete_notes exSt2 [1000000000]).notes =
      alookup 1000000001 exSt2.notes ∧
    (delete_notes exSt2 [1000000000]).cards =
      exSt2.cards.filter (fun p => !(p.2.note_id == 1000000000)) := by
  have h := C5_delete_notes_spec exSt2 1000000000 (by decide)
  exact ⟨h.1, h.2.1 1000000001 (by decide), h.2.2⟩

/-- C6: forget resets every listed existing card to queue 0, type 0,
interval 0, ease factor 2500, lapses 0 and due 0, regardless of its prior
scheduling state; unlisted and unknown card ids are no-ops, and notes and
decks are untouched. -/
theorem C6_forget_spec (st : MockAnkiState) (card_ids : List Nat) :
    (∀ cid card, alookup cid st.cards = some card → cid ∈ card_ids →
      alookup cid (forget_cards st card_ids).cards =
        some ({ card with queue := 0, type := 0, interval := 0, factor := 2500,
                          lapses := 0, due := 0 })) ∧
    (∀ cid card, alookup cid st.cards = some card → cid ∉ card_ids →
      alookup cid (forget_cards st card_ids).cards = some card) ∧
    (∀ cid, alookup cid st.cards = none →
      alookup cid (forget_cards st card_ids).cards = none) ∧
    (forget_cards st card_ids).notes = st.notes ∧
    (forget_cards st card_ids).decks = st.decks := by
  refine ⟨?_, ?_, ?_, ?_, ?_⟩
  · intro cid card hc hm
    exact alookup_foldUpdateCards_mem resetCard (fun c => rfl) hm hc
  · intro cid card hc hm
    rw [forget_cards, alookup_foldUpdateCards_not_mem resetCard hm, hc]
  · intro cid hc
    exact alookup_foldUpdateCards_none resetCard hc
  · exact foldUpdateCards_notes _ _ _
  · exact foldUpdateCards_decks _ _ _

/-- C6 (witness): after setting ease 1800 on the card of `exSt1`, forgetting
it restores all scheduling fields to their documented defaults. -/
theorem C6_witness :
    alookup 1000000000
        (forget_cards (set_ease_factors exSt1 [1000000000] [1800]).2
          [1000000000]).cards =
      some { card_id := 1000000000, note_id := 1000000000, deck_name := "Default",
             question := "Q", answer := "A", factor := 2500, interval := 0,
             lapses := 0, queue := 0, type := 0, due := 0 } :=
  (C6_forget_spec (set_ease_factors exSt1 [1000000000] [1800]).2 [1000000000]).1
    1000000000
    { card_id := 1000000000, note_id := 1000000000, deck_name := "Default",
      question := "Q", answer := "A", factor := 1800 } (by decide) (by decide)

/-- C7: the `prop:ease<N` predicate matches a card exactly when the card's
ease factor divided by 1000 is strictly below the threshold; in particular,
with threshold 2 a card of factor 1500 matches and a card of factor 2500 does
not. -/
theorem C7_prop_ease_spec :
    (∀ (card : MockCard) (threshold : ℚ),
      card_matches_ease_query card threshold = true ↔
        (card.factor : ℚ) / 1000 < threshold) ∧
    card_matches_ease_query lowEaseCard 2 = true ∧
    card_matches_ease_query normalEaseCard 2 = false := by
  refine ⟨?_, ?_, ?_⟩
  · intro card threshold
    by_cases hge : (card.factor : ℚ) / 1000 ≥ threshold
    · rw [card_matches_ease_query, if_pos hge]
      exact iff_of_false (by simp) (not_lt.2 hge)
    · rw [card_matches_ease_query, if_neg hge]
      exact iff_of_true rfl (lt_of_not_ge hge)
  · rw [card_matches_ease_query, if_neg (by norm_num [lowEaseCard])]
  · rw [card_matches_ease_query, if_pos (by norm_num [normalEaseCard])]

/-- C7 (witness): the iff evaluated at the low-ease card with threshold 2. -/
theorem C7_witness : card_matches_ease_query lowEaseCard 2 = true :=
  (C7_prop_ease_spec.1 lowEaseCard 2).2 (by norm_num [lowEaseCard])

/-- C2 (counterexample): for a Cloze note, whose model's first declared field
is "Text", updating "Text" merges the new value into the note but does NOT
propagate it into the card's cached question (the code only reacts to the
literal keys "Front"/"Back"), refuting the claim's "for every model". -/
theorem C2_counterexample :
    alookup "Cloze" exStCloze.models = some ["Text", "Extra"] ∧
    (alookup 1000000000 exStCloze.notes).map MockNote.model_name = some "Cloze" ∧
    (alookup 1000000000
        (update_note_fields exStCloze 1000000000 [("Text", "nueva")]).notes).map
      MockNote.fields = some [("Text", "nueva"), ("Extra", "x")] ∧
    (alookup 1000000000
        (update_note_fields exStCloze 1000000000 [("Text", "nueva")]).cards).map
      MockCard.question = some "hola" := by
  decide

/-- C2 (amended): update_note_fields merges the given field values into the
existing note; the cached question and answer of every card owned by that note
are overwritten exactly when the update map contains the literal field names
"Front" respectively "Back" (the first and second declared fields of the Basic
model) — not the note's own model's declared field names in general — and
cards of other notes are untouched. -/
theorem C2_update_note_fields_spec (st : MockAnkiState) (nid : Nat)
    (fields : List (String × String)) (note : MockNote)
    (h : alookup nid st.notes = some note) :
    alookup nid (update_note_fields st nid fields).notes =
      some ({ note with fields := dictUpdate note.fields fields }) ∧
    (∀ p ∈ st.cards, p.2.note_id = nid →
      (p.1, { p.2 with question := (alookup "Front" fields).getD p.2.question,
                       answer := (alookup "Back" fields).getD p.2.answer }) ∈
        (update_note_fields st nid fields).cards) ∧
    (∀ p ∈ st.cards, p.2.note_id ≠ nid →
      p ∈ (update_note_fields st nid fields).cards) := by
  rw [update_note_fields]
  simp only [h]
  refine ⟨alookup_aset_self _ _ _, ?_, ?_⟩
  · intro p hp hpid
    refine List.mem_map.2 ⟨p, hp, ?_⟩
    rw [if_pos (by simp [hpid])]
  · intro p hp hpid
    refine List.mem_map.2 ⟨p, hp, ?_⟩
    rw [if_neg (by simp [hpid])]

/-- C2 (witness): updating "Front" on the Basic note of `exSt1` merges the
field and rewrites the card's cached question. -/
theorem C2_witness :
    alookup 1000000000 (update_note_fields exSt1 1000000000 [("Front", "Q9")]).notes =
      some { note_id := 1000000000, deck_name := "Default", model_name := "Basic",
             fields := [("Front", "Q9"), ("Back", "A")], tags := [] } ∧
    (1000000000,
      { card_id := 1000000000, note_id := 1000000000, deck_name := "Default",
        question := "Q9", answer := "A" }) ∈
      (update_note_fields exSt1 1000000000 [("Front", "Q9")]).cards := by
  have h := C2_update_note_fields_spec exSt1 1000000000 [("Front", "Q9")]
    { note_id := 1000000000, deck_name := "Default", model_name := "Basic",
      fields := [("Front", "Q"), ("Back", "A")], tags := [] } (by decide)
  refine ⟨h.1.trans (by decide), ?_⟩
  have h2 := h.2.1
    (1000000000,
      { card_id := 1000000000, note_id := 1000000000, deck_name := "Default",
        question := "Q", answer := "A" }) (by decide) rfl
  exact h2

/-- C3 (counterexample): `format_sentence_cloze` strips surrounding whitespace,
so on a sentence with leading whitespace and an absent target the result is
the stripped sentence, not the input string unchanged. -/
theorem C3_counterexample :
    occursIn "xyz".data " hola".data = false ∧
    format_sentence_cloze " hola" "xyz" = "hola" ∧
    (" hola" : String) ≠ "hola" := by
  decide

/-- C3 (amended): the formatter first strips whitespace from both the sentence
and the target; it then wraps the first case-sensitive occurrence of the
stripped target inside the stripped sentence in cloze markup, and when the
stripped target does not occur it returns the stripped sentence unchanged,
with no error. -/
theorem C3_format_sentence_cloze (spanish target : String) :
    (occursIn (pyStrip target.data) (pyStrip spanish.data) = false →
      format_sentence_cloze spanish target = String.mk (pyStrip spanish.data)) ∧
    (∀ pre post : List Char,
      pyStrip spanish.data = pre ++ pyStrip target.data ++ post →
      (∀ i, i < pre.length →
        (pyStrip target.data).isPrefixOf
          (List.drop i (pyStrip spanish.data)) = false) →
      format_sentence_cloze spanish target =
        String.mk (pre ++ clozeRepl (pyStrip target.data) ++ post)) := by
  constructor
  · intro h
    rw [format_sentence_cloze]
    exact congrArg String.mk (replaceFirstAux_of_not_occurs _ h)
  · intro pre post hdec hmin
    rw [hdec] at hmin
    rw [format_sentence_cloze, hdec]
    exact congrArg String.mk
      (replaceFirstAux_first_occurrence (pyStrip target.data)
        (clozeRepl (pyStrip target.data)) pre post hmin)

/-- C3 (witness): the spec's example, evaluated through the amended theorem:
only the first of the two occurrences of "casa" is wrapped. -/
theorem C3_witness :
    format_sentence_cloze "La casa es una casa grande" "casa" =
      "La \x7b\x7bc1::casa\x7d\x7d es una casa grande" := by
  have h := (C3_format_sentence_cloze "La casa es una casa grande" "casa").2
    "La ".data " es una casa grande".data (by decide) (by decide)
  exact h.trans (by decide)

/-- C8: referential integrity is an invariant: in every state reachable from
the initial state through the public operations (create deck, add note, update
fields, delete notes, change deck, add/remove tags, suspend/unsuspend, forget,
set ease), every card's note id references a note present in the state. -/
theorem C8_card_refs_invariant (st : MockAnkiState) (h : Reachable st) :
    cardRefsValid st := by
  induction h with
  | init => exact cardRefsValid_initState
  | step hr hs ih =>
      cases hs with
      | createDeck name => exact cardRefsValid_create_deck _ name ih
      | addNote d m fields tags => exact cardRefsValid_add_note _ d m fields tags ih
      | updateNoteFields nid fields =>
          exact cardRefsValid_update_note_fields _ nid fields ih
      | deleteNotes ids => exact cardRefsValid_delete_notes _ ids ih
      | changeDeck ids deck => exact cardRefsValid_change_deck _ ids deck ih
      | addTags ids tags_str => exact cardRefsValid_add_tags _ ids tags_str ih
      | removeTags ids tags_str => exact cardRefsValid_remove_tags _ ids tags_str ih
      | suspendCards ids => exact cardRefsValid_suspend _ ids ih
      | unsuspendCards ids => exact cardRefsValid_unsuspend _ ids ih
      | forgetCards ids => exact cardRefsValid_forget_cards _ ids ih
      | setEaseFactors ids vals => exact cardRefsValid_set_ease_factors _ ids vals ih

/-- C8 (witness): the invariant holds at the concrete reachable state obtained
by one addNote from the initial state. -/
theorem C8_witness : cardRefsValid exSt1 :=
  C8_card_refs_invariant exSt1
    (Reachable.step Reachable.init
      (AnkiStep.addNote initState "Default" "Basic" [("Front", "Q"), ("Back", "A")] []))
